import Mathlib

set_option maxRecDepth 100000

/-!
Verification of the core logic of the `gana` repository (a stateless Gaana
API relay written in TypeScript).  The development shallowly embeds the
relevant source functions:

* `decryptLink` — the AES-128-CBC stream-link de-obfuscator
  (`src/unnamed/part_000` lines 43–71, duplicated in `src/src/index.ts` and
  `src/unnamed/part_001`);
* `traverseAndDecrypt` — the recursive payload decryptor
  (`src/unnamed/part_000` lines 76–106, handling the `urls` shape and the
  `key = "stream_url"` shape), together with the `FormattersService`
  variant (`src/unnamed/part_001` lines 76–102) which handles only the
  `urls` shape;
* `applySlice`, `applySliceToEntities`, `limitResults` — the result
  windowers (`src/src/index.ts` lines 100–118, `src/unnamed/part_000`
  lines 112–129);
* `getPagination` (`src/src/index.ts` lines 139–149) and `getBatchSize`
  (`src/src/index.ts` lines 43–48) — the pagination planner;
* `DetailsService.getSongInfo` (`src/src/index.ts`, second embedded app)
  — modelled on the already-parsed upstream JSON response.

JSON values are modelled as finite trees (`Json` below): upstream payloads
come from `response.json()`, so there is no aliasing and no cycles, and the
in-place mutation performed by the TypeScript code is modelled as a pure
tree transformation.  JavaScript numbers are modelled as `Int` (the code
only ever produces integers from `parseInt`, `Math.floor` and `%`; the
IEEE-754 precision loss above 2^53 is out of scope).  Node's
`Buffer.toString('utf-8')` followed by stripping every character outside
printable ASCII 0x20–0x7E is modelled as filtering the decrypted bytes to
that range: a byte in 0x20–0x7E is never part of a multi-byte UTF-8
sequence (continuation bytes are ≥ 0x80), so the WHATWG replacement
decoder maps it to itself, and every other byte decodes to characters
outside 0x20–0x7E which the filter removes.
-/

-- ==========================================================================
-- JavaScript primitives: parseInt(s, 10) and the `||` fallbacks
-- ==========================================================================

/-- Longest leading run of decimal digits of `cs`, as a number, together
with the rest; `none` when `cs` does not start with a digit. -/
def digitsPrefix : List Char → Option Nat → Option Nat
  | [], acc => acc
  | c :: cs, acc =>
      if c.isDigit then
        digitsPrefix cs (some ((acc.getD 0) * 10 + (c.toNat - '0'.toNat)))
      else acc

/-- Model of JavaScript `parseInt(s, 10)`: skip leading whitespace, read an
optional sign and then the longest prefix of decimal digits; `none` models
`NaN` (no digits at all).  Exact integer arithmetic stands in for IEEE-754
doubles. -/
def parseIntJS (s : String) : Option Int :=
  let cs := s.data.dropWhile (fun c => c = ' ' ∨ c = '\t' ∨ c = '\n' ∨ c = '\r')
  match cs with
  | '-' :: rest => (digitsPrefix rest none).map (fun n => -(n : Int))
  | '+' :: rest => (digitsPrefix rest none).map (fun n => (n : Int))
  | _ => (digitsPrefix cs none).map (fun n => (n : Int))

/-- JavaScript `s || d` for strings: only the empty string is falsy. -/
def jsOrString (s : Option String) (d : String) : String :=
  match s with
  | none => d
  | some s => if s = "" then d else s

/-- JavaScript `n || d` for a `parseInt` result: `NaN` (here `none`) and
`0` are falsy and replaced by the default. -/
def jsOrNum (n : Option Int) (d : Int) : Int :=
  match n with
  | none => d
  | some v => if v = 0 then d else v

-- ==========================================================================
-- AES-128 inverse cipher (FIPS-197), as invoked through Node's
-- `crypto.createDecipheriv('aes-128-cbc', KEY, IV)` with auto padding
-- disabled.  Bytes are `Nat < 256`; the state is the flat 16-byte block in
-- input order (state byte index r + 4c).
-- ==========================================================================

def sbox : List Nat :=
  [0x63, 0x7c, 0x77, 0x7b, 0xf2, 0x6b, 0x6f, 0xc5, 0x30, 0x01, 0x67, 0x2b, 0xfe, 0xd7, 0xab, 0x76,
   0xca, 0x82, 0xc9, 0x7d, 0xfa, 0x59, 0x47, 0xf0, 0xad, 0xd4, 0xa2, 0xaf, 0x9c, 0xa4, 0x72, 0xc0,
   0xb7, 0xfd, 0x93, 0x26, 0x36, 0x3f, 0xf7, 0xcc, 0x34, 0xa5, 0xe5, 0xf1, 0x71, 0xd8, 0x31, 0x15,
   0x04, 0xc7, 0x23, 0xc3, 0x18, 0x96, 0x05, 0x9a, 0x07, 0x12, 0x80, 0xe2, 0xeb, 0x27, 0xb2, 0x75,
   0x09, 0x83, 0x2c, 0x1a, 0x1b, 0x6e, 0x5a, 0xa0, 0x52, 0x3b, 0xd6, 0xb3, 0x29, 0xe3, 0x2f, 0x84,
   0x53, 0xd1, 0x00, 0xed, 0x20, 0xfc, 0xb1, 0x5b, 0x6a, 0xcb, 0xbe, 0x39, 0x4a, 0x4c, 0x58, 0xcf,
   0xd0, 0xef, 0xaa, 0xfb, 0x43, 0x4d, 0x33, 0x85, 0x45, 0xf9, 0x02, 0x7f, 0x50, 0x3c, 0x9f, 0xa8,
   0x51, 0xa3, 0x40, 0x8f, 0x92, 0x9d, 0x38, 0xf5, 0xbc, 0xb6, 0xda, 0x21, 0x10, 0xff, 0xf3, 0xd2,
   0xcd, 0x0c, 0x13, 0xec, 0x5f, 0x97, 0x44, 0x17, 0xc4, 0xa7, 0x7e, 0x3d, 0x64, 0x5d, 0x19, 0x73,
   0x60, 0x81, 0x4f, 0xdc, 0x22, 0x2a, 0x90, 0x88, 0x46, 0xee, 0xb8, 0x14, 0xde, 0x5e, 0x0b, 0xdb,
   0xe0, 0x32, 0x3a, 0x0a, 0x49, 0x06, 0x24, 0x5c, 0xc2, 0xd3, 0xac, 0x62, 0x91, 0x95, 0xe4, 0x79,
   0xe7, 0xc8, 0x37, 0x6d, 0x8d, 0xd5, 0x4e, 0xa9, 0x6c, 0x56, 0xf4, 0xea, 0x65, 0x7a, 0xae, 0x08,
   0xba, 0x78, 0x25, 0x2e, 0x1c, 0xa6, 0xb4, 0xc6, 0xe8, 0xdd, 0x74, 0x1f, 0x4b, 0xbd, 0x8b, 0x8a,
   0x70, 0x3e, 0xb5, 0x66, 0x48, 0x03, 0xf6, 0x0e, 0x61, 0x35, 0x57, 0xb9, 0x86, 0xc1, 0x1d, 0x9e,
   0xe1, 0xf8, 0x98, 0x11, 0x69, 0xd9, 0x8e, 0x94, 0x9b, 0x1e, 0x87, 0xe9, 0xce, 0x55, 0x28, 0xdf,
   0x8c, 0xa1, 0x89, 0x0d, 0xbf, 0xe6, 0x42, 0x68, 0x41, 0x99, 0x2d, 0x0f, 0xb0, 0x54, 0xbb, 0x16]

def invSbox : List Nat :=
  [0x52, 0x09, 0x6a, 0xd5, 0x30, 0x36, 0xa5, 0x38, 0xbf, 0x40, 0xa3, 0x9e, 0x81, 0xf3, 0xd7, 0xfb,
   0x7c, 0xe3, 0x39, 0x82, 0x9b, 0x2f, 0xff, 0x87, 0x34, 0x8e, 0x43, 0x44, 0xc4, 0xde, 0xe9, 0xcb,
   0x54, 0x7b, 0x94, 0x32, 0xa6, 0xc2, 0x23, 0x3d, 0xee, 0x4c, 0x95, 0x0b, 0x42, 0xfa, 0xc3, 0x4e,
   0x08, 0x2e, 0xa1, 0x66, 0x28, 0xd9, 0x24, 0xb2, 0x76, 0x5b, 0xa2, 0x49, 0x6d, 0x8b, 0xd1, 0x25,
   0x72, 0xf8, 0xf6, 0x64, 0x86, 0x68, 0x98, 0x16, 0xd4, 0xa4, 0x5c, 0xcc, 0x5d, 0x65, 0xb6, 0x92,
   0x6c, 0x70, 0x48, 0x50, 0xfd, 0xed, 0xb9, 0xda, 0x5e, 0x15, 0x46, 0x57, 0xa7, 0x8d, 0x9d, 0x84,
   0x90, 0xd8, 0xab, 0x00, 0x8c, 0xbc, 0xd3, 0x0a, 0xf7, 0xe4, 0x58, 0x05, 0xb8, 0xb3, 0x45, 0x06,
   0xd0, 0x2c, 0x1e, 0x8f, 0xca, 0x3f, 0x0f, 0x02, 0xc1, 0xaf, 0xbd, 0x03, 0x01, 0x13, 0x8a, 0x6b,
   0x3a, 0x91, 0x11, 0x41, 0x4f, 0x67, 0xdc, 0xea, 0x97, 0xf2, 0xcf, 0xce, 0xf0, 0xb4, 0xe6, 0x73,
   0x96, 0xac, 0x74, 0x22, 0xe7, 0xad, 0x35, 0x85, 0xe2, 0xf9, 0x37, 0xe8, 0x1c, 0x75, 0xdf, 0x6e,
   0x47, 0xf1, 0x1a, 0x71, 0x1d, 0x29, 0xc5, 0x89, 0x6f, 0xb7, 0x62, 0x0e, 0xaa, 0x18, 0xbe, 0x1b,
   0xfc, 0x56, 0x3e, 0x4b, 0xc6, 0xd2, 0x79, 0x20, 0x9a, 0xdb, 0xc0, 0xfe, 0x78, 0xcd, 0x5a, 0xf4,
   0x1f, 0xdd, 0xa8, 0x33, 0x88, 0x07, 0xc7, 0x31, 0xb1, 0x12, 0x10, 0x59, 0x27, 0x80, 0xec, 0x5f,
   0x60, 0x51, 0x7f, 0xa9, 0x19, 0xb5, 0x4a, 0x0d, 0x2d, 0xe5, 0x7a, 0x9f, 0x93, 0xc9, 0x9c, 0xef,
   0xa0, 0xe0, 0x3b, 0x4d, 0xae, 0x2a, 0xf5, 0xb0, 0xc8, 0xeb, 0xbb, 0x3c, 0x83, 0x53, 0x99, 0x61,
   0x17, 0x2b, 0x04, 0x7e, 0xba, 0x77, 0xd6, 0x26, 0xe1, 0x69, 0x14, 0x63, 0x55, 0x21, 0x0c, 0x7d]

def tbl (t : List Nat) (i : Nat) : Nat := t.getD i 0

/-- Multiplication by x in GF(2^8) modulo x^8 + x^4 + x^3 + x + 1. -/
def xtime (b : Nat) : Nat := if b < 128 then b * 2 else (b * 2) % 256 ^^^ 0x1b

def mul9 (b : Nat) : Nat := xtime (xtime (xtime b)) ^^^ b

def mul11 (b : Nat) : Nat := xtime (xtime (xtime b)) ^^^ xtime b ^^^ b

def mul13 (b : Nat) : Nat := xtime (xtime (xtime b)) ^^^ xtime (xtime b) ^^^ b

def mul14 (b : Nat) : Nat := xtime (xtime (xtime b)) ^^^ xtime (xtime b) ^^^ xtime b

def rcon : List Nat := [0x01, 0x02, 0x04, 0x08, 0x10, 0x20, 0x40, 0x80, 0x1b, 0x36]

def subWord (w : List Nat) : List Nat := w.map (tbl sbox)

def rotWord : List Nat → List Nat
  | [] => []
  | a :: rest => rest ++ [a]

def xorBytes (a b : List Nat) : List Nat := List.zipWith (fun x y => x ^^^ y) a b

/-- Append `fuel` more expanded key-schedule words (FIPS-197 §5.2). -/
def keyExpansionAux : Nat → List (List Nat) → List (List Nat)
  | 0, ws => ws
  | n + 1, ws =>
      let i := ws.length
      let prev := ws.getD (i - 1) []
      let t := if i % 4 = 0
        then xorBytes (subWord (rotWord prev)) [tbl rcon (i / 4 - 1), 0, 0, 0]
        else prev
      keyExpansionAux n (ws ++ [xorBytes (ws.getD (i - 4) []) t])

/-- The 44 key-schedule words w0..w43 of AES-128. -/
def keyExpansion (key : List Nat) : List (List Nat) :=
  keyExpansionAux 40 [key.take 4, (key.drop 4).take 4, (key.drop 8).take 4, (key.drop 12).take 4]

/-- The 16 bytes of round key `r` (words w_{4r}..w_{4r+3} flattened). -/
def roundKeyBytes (ws : List (List Nat)) (r : Nat) : List Nat :=
  ws.getD (4 * r) [] ++ ws.getD (4 * r + 1) [] ++ ws.getD (4 * r + 2) [] ++ ws.getD (4 * r + 3) []

def addRoundKey (s rk : List Nat) : List Nat := xorBytes s rk

def invSubBytes (s : List Nat) : List Nat := s.map (tbl invSbox)

/-- InvShiftRows: row r of the column-major state is rotated right by r. -/
def invShiftRows (s : List Nat) : List Nat :=
  [tbl s 0, tbl s 13, tbl s 10, tbl s 7,
   tbl s 4, tbl s 1, tbl s 14, tbl s 11,
   tbl s 8, tbl s 5, tbl s 2, tbl s 15,
   tbl s 12, tbl s 9, tbl s 6, tbl s 3]

def invMixOne : List Nat → List Nat
  | [a0, a1, a2, a3] =>
      [mul14 a0 ^^^ mul11 a1 ^^^ mul13 a2 ^^^ mul9 a3,
       mul9 a0 ^^^ mul14 a1 ^^^ mul11 a2 ^^^ mul13 a3,
       mul13 a0 ^^^ mul9 a1 ^^^ mul14 a2 ^^^ mul11 a3,
       mul11 a0 ^^^ mul13 a1 ^^^ mul9 a2 ^^^ mul14 a3]
  | l => l

def invMixColumns (s : List Nat) : List Nat :=
  invMixOne (s.take 4) ++ invMixOne ((s.drop 4).take 4) ++
    invMixOne ((s.drop 8).take 4) ++ invMixOne (s.drop 12)

/-- Rounds 9 down to 1 of the inverse cipher (FIPS-197 §5.3). -/
def invRounds : Nat → List Nat → List (List Nat) → List Nat
  | 0, s, _ => s
  | r + 1, s, ws =>
      invRounds r
        (invMixColumns (addRoundKey (invSubBytes (invShiftRows s)) (roundKeyBytes ws (r + 1)))) ws

/-- AES-128 decryption of one 16-byte block. -/
def aes128DecryptBlock (key block : List Nat) : List Nat :=
  let ws := keyExpansion key
  addRoundKey
    (invSubBytes (invShiftRows (invRounds 9 (addRoundKey block (roundKeyBytes ws 10)) ws)))
    (roundKeyBytes ws 0)

/-- CBC chaining: decrypt each block and XOR with the previous ciphertext
block (the IV for the first).  Structured as a 16-way cons pattern so the
recursion is structural. -/
def cbcChain (key : List Nat) : List Nat → List Nat → List Nat
  | prev,
    b0 :: b1 :: b2 :: b3 :: b4 :: b5 :: b6 :: b7 ::
    b8 :: b9 :: b10 :: b11 :: b12 :: b13 :: b14 :: b15 :: rest =>
      let blk := [b0, b1, b2, b3, b4, b5, b6, b7, b8, b9, b10, b11, b12, b13, b14, b15]
      xorBytes (aes128DecryptBlock key blk) prev ++ cbcChain key blk rest
  | _, _ => []

/-- AES-128-CBC decryption with auto padding disabled, as Node's
`Decipheriv` behaves: the raw decrypted bytes are returned (padding
included), and a ciphertext whose length is not a multiple of the block
size makes `decipher.final()` throw (modelled as `none`). -/
def aes128cbcDecrypt (key iv ct : List Nat) : Option (List Nat) :=
  if ct.length % 16 = 0 then some (cbcChain key iv ct) else none


-- ==========================================================================
-- Base64 decoding as Node's `Buffer.from(s, 'base64')` behaves on the
-- tokens at hand: characters outside the (url-safe extended) alphabet and
-- `=` padding are ignored, sextets are packed 4-to-3, and a trailing group
-- of 2 or 3 sextets yields 1 or 2 bytes (a lone trailing sextet yields
-- nothing).  `Buffer.from` never throws.
-- ==========================================================================

def b64Val (c : Char) : Option Nat :=
  if 'A' ≤ c ∧ c ≤ 'Z' then some (c.toNat - 'A'.toNat)
  else if 'a' ≤ c ∧ c ≤ 'z' then some (c.toNat - 'a'.toNat + 26)
  else if '0' ≤ c ∧ c ≤ '9' then some (c.toNat - '0'.toNat + 52)
  else if c = '+' ∨ c = '-' then some 62
  else if c = '/' ∨ c = '_' then some 63
  else none

def b64Groups : List Nat → List Nat
  | a :: b :: c :: d :: rest =>
      (a * 4 + b / 16) :: ((b % 16) * 16 + c / 4) :: ((c % 4) * 64 + d) :: b64Groups rest
  | [a, b] => [a * 4 + b / 16]
  | [a, b, c] => [a * 4 + b / 16, (b % 16) * 16 + c / 4]
  | _ => []

def base64Decode (cs : List Char) : List Nat :=
  b64Groups (cs.filterMap b64Val)

-- ==========================================================================
-- decryptLink (src/unnamed/part_000 lines 43-71; byte-identical copies in
-- src/src/index.ts line 50 and src/unnamed/part_001 line 30)
-- ==========================================================================

def DEC_IV : List Nat := "xC4dmVJAq14BfntX".data.map Char.toNat

def DEC_KEY : List Nat := "gy1t#b@jl(b$wtme".data.map Char.toNat

def CDN_ORIGIN : String := "https://vodhlsgaana-ebw.akamaized.net/"

def hlsMarker : List Char := ['h', 'l', 's', '/']

/-- Index of the first occurrence of `pat` in a character list, as
JavaScript's `String.prototype.indexOf`; `none` when absent (`includes`
is `indexOf ≠ -1`). -/
def indexOfSub (pat : List Char) : List Char → Option Nat
  | [] => if pat.isPrefixOf ([] : List Char) then some 0 else none
  | c :: cs =>
      if pat.isPrefixOf (c :: cs) then some 0
      else (indexOfSub pat cs).map (fun n => n + 1)

/-- `decryptLink` from the source.  The `try`/`catch` wrapping is modelled
by the `none` branch of `aes128cbcDecrypt`: the only throwing step in the
try block is `decipher.update`/`final` on a ciphertext whose length is not
a multiple of 16.  The `!encryptedData` guard coincides with
`length < 20` for strings. -/
def decryptLink (encryptedData : String) : String :=
  if encryptedData.length < 20 then encryptedData
  else
    match encryptedData.data with
    | [] => encryptedData
    | c :: _ =>
      if ¬ c.isDigit then encryptedData
      else
        let offset := c.toNat - '0'.toNat
        let ciphertextB64 := encryptedData.data.drop (offset + 16)
        let ciphertext := base64Decode ciphertextB64
        match aes128cbcDecrypt DEC_KEY DEC_IV ciphertext with
        | none => encryptedData
        | some decrypted =>
          let cleaned := (decrypted.filter (fun b => decide (32 ≤ b ∧ b ≤ 126))).map Char.ofNat
          match indexOfSub hlsMarker cleaned with
          | some i => CDN_ORIGIN ++ String.mk (cleaned.drop i)
          | none => if cleaned = [] then encryptedData else String.mk cleaned

-- ==========================================================================
-- JSON values.  Payloads come from `response.json()`, hence are finite
-- trees without aliasing; in-place mutation is modelled as pure
-- reconstruction.  Objects are key-ordered binding lists; keys of a JSON
-- object produced by a parse are unique, and all reads/writes below use
-- the first binding, so the model is coherent on that fragment.
-- ==========================================================================

inductive Json where
  | null
  | bool (b : Bool)
  | num (n : Int)
  | str (s : String)
  | arr (xs : List Json)
  | obj (fields : List (String × Json))
deriving Repr

/-- JavaScript truthiness of a JSON value (`NaN` does not arise from a
JSON parse). -/
def jsTruthy : Json → Bool
  | .null => false
  | .bool b => b
  | .num n => decide (n ≠ 0)
  | .str s => decide (s ≠ "")
  | .arr _ => true
  | .obj _ => true

/-- `typeof v === 'object'` for a truthy JSON value: objects and arrays
(`typeof null` is also `'object'`, but `null` is falsy and the source
always tests truthiness first). -/
def isObjTypeofTruthy : Json → Bool
  | .obj _ => true
  | .arr _ => true
  | _ => false

def lookupField : List (String × Json) → String → Option Json
  | [], _ => none
  | (k', v) :: fs, k => if k' = k then some v else lookupField fs k

/-- Replace the value of the first binding of `k` (JS property write on
an object, whose keys are unique). -/
def setField : List (String × Json) → String → Json → List (String × Json)
  | [], _, _ => []
  | (k', v') :: fs, k, v => if k' = k then (k', v) :: fs else (k', v') :: setField fs k v

/-- Apply `f` to the value of the first binding of `k`, if present. -/
def modifyField : List (String × Json) → String → (Json → Json) → List (String × Json)
  | [], _, _ => []
  | (k', v) :: fs, k, f => if k' = k then (k', f v) :: fs else (k', v) :: modifyField fs k f

/-- Property access `v[k]`: named fields only exist on objects; on every
other JSON value the access yields `undefined` (`none`). -/
def getField : Json → String → Option Json
  | .obj fs, k => lookupField fs k
  | _, _ => none

-- ==========================================================================
-- traverseAndDecrypt (src/unnamed/part_000 lines 76-106) and the
-- FormattersService variant (src/unnamed/part_001 lines 76-102, duplicated
-- in the second app of src/src/index.ts), which has no stream_url branch.
-- ==========================================================================

/-- `decryptLink` as applied to an arbitrary `message` value: on a string
it decrypts; any non-string argument is returned unchanged by
`decryptLink` itself (its `.length`/`[0]` accesses give `undefined`, so
either the `< 20` test or the `isNaN` test or the thrown `substring`
call ends with the input returned). -/
def decryptLinkJson : Json → Json
  | .str s => .str (decryptLink s)
  | v => v

/-- `if (tier?.message) tier.message = decryptLink(tier.message)`. -/
def messageUpdate (m : Json) : Json := if jsTruthy m then decryptLinkJson m else m

def decryptTier : Json → Json
  | .obj tfs => .obj (modifyField tfs "message" messageUpdate)
  | v => v

def qualities : List String := ["auto", "high", "medium", "low"]

/-- One iteration of the quality loop on the tier map `m`. -/
def updateTierAt (m : Json) (q : String) : Json :=
  match m with
  | .obj fs => .obj (modifyField fs q decryptTier)
  | v => v

/-- `for (quality of ['auto','high','medium','low']) ...` over a tier map. -/
def decryptQualityMap (m : Json) : Json := qualities.foldl updateTierAt m

/-- Shape A at one object node: `data.urls` truthy, of object type and
not an array, i.e. an object. -/
def decryptShapeA (fs : List (String × Json)) : List (String × Json) :=
  match lookupField fs "urls" with
  | some (.obj _) => modifyField fs "urls" decryptQualityMap
  | _ => fs

/-- Shape B after Shape A: `data.key === 'stream_url' && data.value &&
typeof data.value === 'object'` (note: arrays pass this test; their
quality lookups are then all `undefined`). -/
def decryptShapes (fs : List (String × Json)) : List (String × Json) :=
  let fs1 := decryptShapeA fs
  match lookupField fs1 "key", lookupField fs1 "value" with
  | some (.str k), some v =>
      if k = "stream_url" then
        if isObjTypeofTruthy v then modifyField fs1 "value" decryptQualityMap else fs1
      else fs1
  | _, _ => fs1


mutual

/-- `traverseAndDecrypt` (src/unnamed/part_000 lines 76-106): both shape
checks at each object node, and recursion into every own property value
(recursing into a scalar is a no-op, so the `typeof value === 'object'`
guard is immaterial).  The source mutates the node first and then
recurses; here the recursion is done first so that the definition is
structural, and the source's mutate-then-recurse equation is recovered
verbatim as the theorem `traverseAndDecrypt_source_order` below — the
two orders coincide because the node transform only rewrites string
leaves at `message` positions and the traversal preserves every string
leaf, every constructor and hence every shape-recognition test. -/
def traverseAndDecrypt : Json → Json
  | .obj fs => .obj (decryptShapes (travFields fs))
  | .arr xs => .arr (travList xs)
  | .null => .null
  | .bool b => .bool b
  | .num n => .num n
  | .str s => .str s

def travList : List Json → List Json
  | [] => []
  | x :: xs => traverseAndDecrypt x :: travList xs

def travFields : List (String × Json) → List (String × Json)
  | [] => []
  | (k, v) :: fs => (k, traverseAndDecrypt v) :: travFields fs

end

mutual

/-- `FormattersService.traverseAndDecrypt` (src/unnamed/part_001 lines
76-102 and the second app in src/src/index.ts): identical to
`traverseAndDecrypt` except that only the `urls` shape is handled —
there is no `stream_url` branch.  Ordered as in `traverseAndDecrypt`,
with the source's order recovered by `formatters_source_order`. -/
def formattersTraverseAndDecrypt : Json → Json
  | .obj fs => .obj (decryptShapeA (fmtTravFields fs))
  | .arr xs => .arr (fmtTravList xs)
  | .null => .null
  | .bool b => .bool b
  | .num n => .num n
  | .str s => .str s

def fmtTravList : List Json → List Json
  | [] => []
  | x :: xs => formattersTraverseAndDecrypt x :: fmtTravList xs

def fmtTravFields : List (String × Json) → List (String × Json)
  | [] => []
  | (k, v) :: fs => (k, formattersTraverseAndDecrypt v) :: fmtTravFields fs

end

-- ==========================================================================
-- Specification-side decryptor, worded from the spec/claims: at every
-- object node matching Shape A (an object-valued, non-array `urls` field)
-- or Shape B (a `key` field equal to "stream_url" with an object-valued
-- `value` field), each present quality tier that is an object whose
-- `message` is a non-empty string has it replaced by the decoder's output.
-- ==========================================================================

def specMessageUpdate (m : Json) : Json :=
  match m with
  | .str s => if s = "" then m else .str (decryptLink s)
  | _ => m

def specDecryptTier : Json → Json
  | .obj tfs => .obj (modifyField tfs "message" specMessageUpdate)
  | v => v

def specUpdateTierAt (m : Json) (q : String) : Json :=
  match m with
  | .obj fs => .obj (modifyField fs q specDecryptTier)
  | v => v

def specDecryptQualityMap (m : Json) : Json := qualities.foldl specUpdateTierAt m

def specDecryptShapeA (fs : List (String × Json)) : List (String × Json) :=
  match lookupField fs "urls" with
  | some (.obj _) => modifyField fs "urls" specDecryptQualityMap
  | _ => fs

/-- Shape B as the claim words it: the `value` field must be an object. -/
def specDecryptShapes (fs : List (String × Json)) : List (String × Json) :=
  let fs1 := specDecryptShapeA fs
  match lookupField fs1 "key", lookupField fs1 "value" with
  | some (.str k), some (.obj _) =>
      if k = "stream_url" then modifyField fs1 "value" specDecryptQualityMap else fs1
  | _, _ => fs1

mutual

/-- The claim-side decryptor: visit every object reachable from the root
(including through arrays) and apply both shape transforms at every
object node. -/
def specTraverseAndDecrypt : Json → Json
  | .obj fs => .obj (specDecryptShapes (specTravFields fs))
  | .arr xs => .arr (specTravList xs)
  | .null => .null
  | .bool b => .bool b
  | .num n => .num n
  | .str s => .str s

def specTravList : List Json → List Json
  | [] => []
  | x :: xs => specTraverseAndDecrypt x :: specTravList xs

def specTravFields : List (String × Json) → List (String × Json)
  | [] => []
  | (k, v) :: fs => (k, specTraverseAndDecrypt v) :: specTravFields fs

end

mutual

/-- The claim-side decryptor restricted to Shape A, for the
`FormattersService` variant. -/
def specTraverseA : Json → Json
  | .obj fs => .obj (specDecryptShapeA (specTravAFields fs))
  | .arr xs => .arr (specTravAList xs)
  | .null => .null
  | .bool b => .bool b
  | .num n => .num n
  | .str s => .str s

def specTravAList : List Json → List Json
  | [] => []
  | x :: xs => specTraverseA x :: specTravAList xs

def specTravAFields : List (String × Json) → List (String × Json)
  | [] => []
  | (k, v) :: fs => (k, specTraverseA v) :: specTravAFields fs

end

-- ==========================================================================
-- Structural skeleton and link-shape recognizer, for the frame claim:
-- the skeleton forgets only the contents of string leaves, so skeleton
-- preservation says no field is added, removed or renamed, no array
-- changes length or order, and no non-string value changes at all.
-- ==========================================================================

mutual

def jsonSkel : Json → Json
  | .obj fs => .obj (jsonSkelFields fs)
  | .arr xs => .arr (jsonSkelList xs)
  | .str _ => .str ""
  | .null => .null
  | .bool b => .bool b
  | .num n => .num n

def jsonSkelList : List Json → List Json
  | [] => []
  | x :: xs => jsonSkel x :: jsonSkelList xs

def jsonSkelFields : List (String × Json) → List (String × Json)
  | [] => []
  | (k, v) :: fs => (k, jsonSkel v) :: jsonSkelFields fs

end

/-- Does this object node match Shape A or Shape B as the code tests
them? -/
def nodeHasShape (fs : List (String × Json)) : Bool :=
  (match lookupField fs "urls" with
   | some (.obj _) => true
   | _ => false) ||
  (match lookupField fs "key", lookupField fs "value" with
   | some (.str k), some v => decide (k = "stream_url") && isObjTypeofTruthy v
   | _, _ => false)

mutual

/-- Is a recognized link shape present anywhere in the payload? -/
def hasLinkShape : Json → Bool
  | .obj fs => nodeHasShape fs || hasLinkShapeFields fs
  | .arr xs => hasLinkShapeList xs
  | _ => false

def hasLinkShapeList : List Json → Bool
  | [] => false
  | x :: xs => hasLinkShape x || hasLinkShapeList xs

def hasLinkShapeFields : List (String × Json) → Bool
  | [] => false
  | (_, v) :: fs => hasLinkShape v || hasLinkShapeFields fs

end


-- ==========================================================================
-- Result windowing: applySlice / applySliceToEntities
-- (src/src/index.ts lines 100-118) and limitResults
-- (src/unnamed/part_000 lines 112-129)
-- ==========================================================================

/-- JavaScript `Array.prototype.slice(start, end)`: negative indices
count from the end, both are clamped to `[0, length]`, and the result is
the (possibly empty) segment in between — never an error. -/
def jsSlice (xs : List Json) (s e : Int) : List Json :=
  let n : Int := xs.length
  let s' := if s < 0 then max (n + s) 0 else min s n
  let e' := if e < 0 then max (n + e) 0 else min e n
  (xs.take e'.toNat).drop s'.toNat

/-- `applySlice` (src/src/index.ts lines 100-110): slice every group's
`gd` array inside a `gr` array.  `!data` and property access on
non-objects both fall through to the unchanged payload. -/
def applySlice (data : Json) (s e : Int) : Json :=
  match data with
  | .obj fs =>
      match lookupField fs "gr" with
      | some (.arr groups) =>
          .obj (setField fs "gr" (.arr (groups.map (fun g =>
            match g with
            | .obj gfs =>
                match lookupField gfs "gd" with
                | some (.arr items) => Json.obj (setField gfs "gd" (.arr (jsSlice items s e)))
                | _ => g
            | _ => g))))
      | _ => data
  | _ => data

/-- `applySliceToEntities` (src/src/index.ts lines 112-118). -/
def applySliceToEntities (data : Json) (s e : Int) : Json :=
  match data with
  | .obj fs =>
      match lookupField fs "entities" with
      | some (.arr xs) => .obj (setField fs "entities" (.arr (jsSlice xs s e)))
      | _ => data
  | _ => data

/-- `limitResults` (src/unnamed/part_000 lines 112-129): same `gr`/`gd`
slicing from index 0 with a parsed limit; absent/empty/unparsable or
non-positive limits return the payload unchanged. -/
def limitResults (data : Json) (limit : Option String) : Json :=
  match limit with
  | none => data
  | some l =>
      if l = "" then data
      else
        match parseIntJS l with
        | none => data
        | some n =>
            if n ≤ 0 then data
            else
              match data with
              | .obj fs =>
                  match lookupField fs "gr" with
                  | some (.arr groups) =>
                      .obj (setField fs "gr" (.arr (groups.map (fun g =>
                        match g with
                        | .obj gfs =>
                            match lookupField gfs "gd" with
                            | some (.arr items) => Json.obj (setField gfs "gd" (.arr (jsSlice items 0 n)))
                            | _ => g
                        | _ => g))))
                  | _ => data
              | _ => data

/-- The claim-side flat-list windower: the top-level `entities` sequence,
when present and array-typed, is replaced by its slice `[start, end)`;
otherwise the payload is unchanged. -/
def windowFlatSpec (data : Json) (s e : Int) : Json :=
  match data with
  | .obj fs => .obj (modifyField fs "entities" (fun w =>
      match w with
      | .arr xs => .arr (jsSlice xs s e)
      | w => w))
  | _ => data

/-- The claim-side grouped-list windower: every group's inner `gd`
sequence is replaced by its slice `[start, end)`. -/
def windowGroupedSpec (data : Json) (s e : Int) : Json :=
  match data with
  | .obj fs => .obj (modifyField fs "gr" (fun w =>
      match w with
      | .arr groups => .arr (groups.map (fun g =>
          match g with
          | .obj gfs => .obj (modifyField gfs "gd" (fun w2 =>
              match w2 with
              | .arr items => .arr (jsSlice items s e)
              | w2 => w2))
          | _ => g))
      | w => w))
  | _ => data

-- ==========================================================================
-- Pagination planner: getBatchSize (src/src/index.ts lines 43-48) and
-- getPagination (src/src/index.ts lines 139-149)
-- ==========================================================================

def getBatchSize (type : String) : Int :=
  if type = "musiclabelalbums" then 50 else 20

structure Pagination where
  gaanaPage : Int
  sliceStart : Int
  sliceEnd : Int
deriving Repr, DecidableEq

/-- `getPagination` (src/src/index.ts lines 139-149).
`parseInt(x || d, 10) || d` keeps every nonzero parse (negative values
included) and falls back on `NaN`/`0`.  JavaScript's
`Math.floor(totalOffset / batchSize)` on the exact real quotient is
`Int.fdiv`, and `%` is the truncated remainder `Int.tmod` (sign of the
dividend).  The source stringifies `gaanaPage` for the query string; it
is kept as an integer here. -/
def getPagination (pageStr limitStr : Option String) (batchSize : Int) : Pagination :=
  let limit := jsOrNum (parseIntJS (jsOrString limitStr "10")) 10
  let page := jsOrNum (parseIntJS (jsOrString pageStr "0")) 0
  let totalOffset := page * limit
  { gaanaPage := Int.fdiv totalOffset batchSize
    sliceStart := Int.tmod totalOffset batchSize
    sliceEnd := Int.tmod totalOffset batchSize + limit }

-- ==========================================================================
-- DetailsService.getSongInfo (src/src/index.ts, second embedded app,
-- lines 523-537), modelled on the already-parsed upstream JSON value
-- (the network fetch is an external collaborator).
-- ==========================================================================

def songNotFound : Json := .obj [("error", .str "Song not found")]

/-- `getSongInfo`: `!result || typeof result !== 'object'` rejects every
falsy value and every truthy primitive (arrays pass it, but their
`tracks` access is `undefined`); then `tracks` must be a non-empty
array, and only its first element — decrypted by the FormattersService
traversal — is returned. -/
def getSongInfo (result : Json) : Json :=
  if ¬ (jsTruthy result = true ∧ isObjTypeofTruthy result = true) then songNotFound
  else
    match getField result "tracks" with
    | some (.arr (t :: _)) => formattersTraverseAndDecrypt t
    | _ => songNotFound

-- ==========================================================================
-- Concrete test data.  `sampleToken` was produced by AES-128-CBC
-- encrypting the 16-byte plaintext "hls/x/master.m3u" under the fixed
-- key and IV, base64-encoding the ciphertext and prepending the offset
-- digit '2' and 17 filler characters (the first 2 + 16 characters of a
-- token are discarded by the decoder).
-- ==========================================================================

def sampleToken : String := "2AAAAAAAAAAAAAAAAAGbcPrCi35YBlU8JSdgtHuw=="

def sampleDecoded : String := "https://vodhlsgaana-ebw.akamaized.net/hls/x/master.m3u"

/-- A minimal Shape B payload: `key = "stream_url"` with a tier map
carrying one encrypted message. -/
def shapeBPayload : Json :=
  .obj [("key", .str "stream_url"),
        ("value", .obj [("auto", .obj [("message", .str sampleToken)])])]

/-- The error condition claimed for `getSongInfo`: the parsed response is
null, not an object, or lacks a `tracks` field that is a non-empty
array. -/
def songInfoErrorCond (r : Json) : Bool :=
  match r with
  | .obj fs =>
      match lookupField fs "tracks" with
      | some (.arr (_ :: _)) => false
      | _ => true
  | _ => true

/-- Sanity check: the FIPS-197 Appendix C.1 vector decrypts correctly. -/
theorem aes128_fips197_c1 :
    aes128DecryptBlock
      [0x00, 0x01, 0x02, 0x03, 0x04, 0x05, 0x06, 0x07,
       0x08, 0x09, 0x0a, 0x0b, 0x0c, 0x0d, 0x0e, 0x0f]
      [0x69, 0xc4, 0xe0, 0xd8, 0x6a, 0x7b, 0x04, 0x30,
       0xd8, 0xcd, 0xb7, 0x80, 0x70, 0xb4, 0xc5, 0x5a] =
      [0x00, 0x11, 0x22, 0x33, 0x44, 0x55, 0x66, 0x77,
       0x88, 0x99, 0xaa, 0xbb, 0xcc, 0xdd, 0xee, 0xff] := by decide

-- ==========================================================================
-- A member-wise induction principle for the nested inductive `Json`.
-- ==========================================================================

@[induction_eliminator]
theorem Json.memInduction {P : Json → Prop}
    (hnull : P .null) (hbool : ∀ b, P (.bool b)) (hnum : ∀ n, P (.num n))
    (hstr : ∀ s, P (.str s))
    (harr : ∀ xs, (∀ x ∈ xs, P x) → P (.arr xs))
    (hobj : ∀ fs, (∀ p ∈ fs, P p.2) → P (.obj fs)) : ∀ v, P v := by
  intro v
  refine @Json.rec P (fun xs => ∀ x ∈ xs, P x) (fun fs => ∀ p ∈ fs, P p.2)
    (fun p => P p.2) hnull hbool hnum hstr harr hobj ?_ ?_ ?_ ?_ ?_ v
  case _ => intro x hx; cases hx
  case _ =>
    intro x xs hx hxs y hy
    rcases List.mem_cons.mp hy with h | h
    · exact h ▸ hx
    · exact hxs y h
  case _ => intro p hp; cases hp
  case _ =>
    intro p fs hp hfs q hq
    rcases List.mem_cons.mp hq with h | h
    · exact h ▸ hp
    · exact hfs q h
  case _ => intro k v hv; exact hv

-- ==========================================================================
-- Association-list lemmas
-- ==========================================================================

theorem lookupField_map (g : Json → Json) (fs : List (String × Json)) (k : String) :
    lookupField (fs.map (fun p => (p.1, g p.2))) k = (lookupField fs k).map g := by
  induction fs with
  | nil => rfl
  | cons p fs ih =>
      obtain ⟨k1, v1⟩ := p
      by_cases h : k1 = k <;> simp [lookupField, h, ih]

theorem modifyField_congr (f g : Json → Json) (h : ∀ v, f v = g v)
    (fs : List (String × Json)) (k : String) :
    modifyField fs k f = modifyField fs k g := by
  induction fs with
  | nil => rfl
  | cons p fs ih =>
      obtain ⟨k1, v1⟩ := p
      by_cases h1 : k1 = k <;> simp [modifyField, h1, h, ih]

theorem modifyField_of_lookup_none (fs : List (String × Json)) (k : String)
    (f : Json → Json) (h : lookupField fs k = none) : modifyField fs k f = fs := by
  induction fs with
  | nil => rfl
  | cons p fs ih =>
      obtain ⟨k1, v1⟩ := p
      by_cases h1 : k1 = k
      · simp [lookupField, h1] at h
      · simp [lookupField, h1] at h
        simp [modifyField, h1, ih h]

theorem modifyField_eq_self (fs : List (String × Json)) (k : String)
    (f : Json → Json) (v : Json) (hl : lookupField fs k = some v) (hf : f v = v) :
    modifyField fs k f = fs := by
  induction fs with
  | nil => simp [lookupField] at hl
  | cons p fs ih =>
      obtain ⟨k1, v1⟩ := p
      by_cases h1 : k1 = k
      · simp [lookupField, h1] at hl
        simp [modifyField, h1, hl ▸ hf]
      · simp [lookupField, h1] at hl
        simp [modifyField, h1, ih hl]

theorem modifyField_eq_setField (fs : List (String × Json)) (k : String)
    (f : Json → Json) (v : Json) (hl : lookupField fs k = some v) :
    modifyField fs k f = setField fs k (f v) := by
  induction fs with
  | nil => simp [lookupField] at hl
  | cons p fs ih =>
      obtain ⟨k1, v1⟩ := p
      by_cases h1 : k1 = k
      · simp [lookupField, h1] at hl
        simp [modifyField, setField, h1, hl]
      · simp [lookupField, h1] at hl
        simp [modifyField, setField, h1, ih hl]

theorem lookupField_modifyField_ne (fs : List (String × Json)) (k k' : String)
    (f : Json → Json) (h : k ≠ k') :
    lookupField (modifyField fs k' f) k = lookupField fs k := by
  induction fs with
  | nil => rfl
  | cons p fs ih =>
      obtain ⟨k1, v1⟩ := p
      by_cases h1 : k1 = k'
      · subst h1
        simp [modifyField, lookupField, Ne.symm h]
      · by_cases h2 : k1 = k <;> simp [modifyField, lookupField, h1, h2, h, ih]

theorem modifyField_comm (fs : List (String × Json)) (k k' : String)
    (f g : Json → Json) (h : k ≠ k') :
    modifyField (modifyField fs k f) k' g = modifyField (modifyField fs k' g) k f := by
  induction fs with
  | nil => rfl
  | cons p fs ih =>
      obtain ⟨k1, v1⟩ := p
      by_cases h1 : k1 = k
      · subst h1
        simp [modifyField, h, Ne.symm h]
      · by_cases h2 : k1 = k' <;> simp [modifyField, h1, h2, Ne.symm h, ih]

theorem map_modifyField (g f f' : Json → Json) (hc : ∀ v, g (f v) = f' (g v))
    (fs : List (String × Json)) (k : String) :
    (modifyField fs k f).map (fun p => (p.1, g p.2)) =
      modifyField (fs.map (fun p => (p.1, g p.2))) k f' := by
  induction fs with
  | nil => rfl
  | cons p fs ih =>
      obtain ⟨k1, v1⟩ := p
      by_cases h1 : k1 = k <;> simp [modifyField, h1, hc, ih]

-- ==========================================================================
-- Map shapes of the traversals
-- ==========================================================================

theorem travFields_eq_map (fs : List (String × Json)) :
    travFields fs = fs.map (fun p => (p.1, traverseAndDecrypt p.2)) := by
  induction fs with
  | nil => rfl
  | cons p fs ih => obtain ⟨k, v⟩ := p; simp [travFields, ih]

theorem travList_eq_map (xs : List Json) : travList xs = xs.map traverseAndDecrypt := by
  induction xs with
  | nil => rfl
  | cons x xs ih => simp [travList, ih]

theorem fmtTravFields_eq_map (fs : List (String × Json)) :
    fmtTravFields fs = fs.map (fun p => (p.1, formattersTraverseAndDecrypt p.2)) := by
  induction fs with
  | nil => rfl
  | cons p fs ih => obtain ⟨k, v⟩ := p; simp [fmtTravFields, ih]

theorem fmtTravList_eq_map (xs : List Json) :
    fmtTravList xs = xs.map formattersTraverseAndDecrypt := by
  induction xs with
  | nil => rfl
  | cons x xs ih => simp [fmtTravList, ih]

theorem specTravFields_eq_map (fs : List (String × Json)) :
    specTravFields fs = fs.map (fun p => (p.1, specTraverseAndDecrypt p.2)) := by
  induction fs with
  | nil => rfl
  | cons p fs ih => obtain ⟨k, v⟩ := p; simp [specTravFields, ih]

theorem specTravList_eq_map (xs : List Json) :
    specTravList xs = xs.map specTraverseAndDecrypt := by
  induction xs with
  | nil => rfl
  | cons x xs ih => simp [specTravList, ih]

theorem specTravAFields_eq_map (fs : List (String × Json)) :
    specTravAFields fs = fs.map (fun p => (p.1, specTraverseA p.2)) := by
  induction fs with
  | nil => rfl
  | cons p fs ih => obtain ⟨k, v⟩ := p; simp [specTravAFields, ih]

theorem specTravAList_eq_map (xs : List Json) :
    specTravAList xs = xs.map specTraverseA := by
  induction xs with
  | nil => rfl
  | cons x xs ih => simp [specTravAList, ih]

theorem jsonSkelFields_eq_map (fs : List (String × Json)) :
    jsonSkelFields fs = fs.map (fun p => (p.1, jsonSkel p.2)) := by
  induction fs with
  | nil => rfl
  | cons p fs ih => obtain ⟨k, v⟩ := p; simp [jsonSkelFields, ih]

theorem jsonSkelList_eq_map (xs : List Json) : jsonSkelList xs = xs.map jsonSkel := by
  induction xs with
  | nil => rfl
  | cons x xs ih => simp [jsonSkelList, ih]

-- ==========================================================================
-- One-step preservation facts about the traversals
-- ==========================================================================

theorem jsTruthy_trav (v : Json) : jsTruthy (traverseAndDecrypt v) = jsTruthy v := by
  cases v <;> rfl

theorem isObjTypeofTruthy_trav (v : Json) :
    isObjTypeofTruthy (traverseAndDecrypt v) = isObjTypeofTruthy v := by
  cases v <;> rfl

theorem jsTruthy_fmtTrav (v : Json) :
    jsTruthy (formattersTraverseAndDecrypt v) = jsTruthy v := by
  cases v <;> rfl

theorem isObjTypeofTruthy_fmtTrav (v : Json) :
    isObjTypeofTruthy (formattersTraverseAndDecrypt v) = isObjTypeofTruthy v := by
  cases v <;> rfl

-- ==========================================================================
-- The code-side node transform coincides with the claim-side one
-- ==========================================================================

theorem messageUpdate_eq_spec (m : Json) : messageUpdate m = specMessageUpdate m := by
  cases m with
  | str s =>
      by_cases h : s = "" <;>
        simp [messageUpdate, specMessageUpdate, jsTruthy, decryptLinkJson, h]
  | _ => simp [messageUpdate, specMessageUpdate, jsTruthy, decryptLinkJson]

theorem decryptTier_eq_spec (t : Json) : decryptTier t = specDecryptTier t := by
  cases t with
  | obj tfs =>
      simp only [decryptTier, specDecryptTier]
      exact congrArg Json.obj (modifyField_congr _ _ messageUpdate_eq_spec tfs "message")
  | _ => rfl

theorem updateTierAt_eq_spec (m : Json) (q : String) :
    updateTierAt m q = specUpdateTierAt m q := by
  cases m with
  | obj fs =>
      simp only [updateTierAt, specUpdateTierAt]
      exact congrArg Json.obj (modifyField_congr _ _ decryptTier_eq_spec fs q)
  | _ => rfl

theorem decryptQualityMap_eq_spec (m : Json) :
    decryptQualityMap m = specDecryptQualityMap m := by
  simp only [decryptQualityMap, specDecryptQualityMap, qualities,
    List.foldl_cons, List.foldl_nil]
  simp only [updateTierAt_eq_spec]

theorem decryptQualityMap_arr (xs : List Json) :
    decryptQualityMap (.arr xs) = .arr xs := rfl

theorem decryptShapeA_eq_spec (fs : List (String × Json)) :
    decryptShapeA fs = specDecryptShapeA fs := by
  unfold decryptShapeA specDecryptShapeA
  cases h : lookupField fs "urls" with
  | none => rfl
  | some v =>
      cases v <;> simp
      exact modifyField_congr _ _ decryptQualityMap_eq_spec fs "urls"

theorem decryptShapes_eq_spec (fs : List (String × Json)) :
    decryptShapes fs = specDecryptShapes fs := by
  simp only [decryptShapes, specDecryptShapes, decryptShapeA_eq_spec]
  generalize specDecryptShapeA fs = gs
  cases hk : lookupField gs "key" with
  | none => cases hv : lookupField gs "value" <;> rfl
  | some kv =>
      cases hv : lookupField gs "value" with
      | none => cases kv <;> rfl
      | some v =>
          cases kv with
          | str k =>
              by_cases hs : k = "stream_url"
              · cases v with
                | arr xs =>
                    simp only [hs, isObjTypeofTruthy, if_true]
                    exact modifyField_eq_self _ _ _ _ hv (decryptQualityMap_arr xs)
                | obj vfs =>
                    simp only [hs, isObjTypeofTruthy, if_true]
                    exact modifyField_congr _ _ decryptQualityMap_eq_spec _ "value"
                | null => simp [hs, isObjTypeofTruthy]
                | bool b => simp [hs, isObjTypeofTruthy]
                | num n => simp [hs, isObjTypeofTruthy]
                | str s => simp [hs, isObjTypeofTruthy]
              · cases v <;> simp [hs]
          | null => rfl
          | bool b => rfl
          | num n => rfl
          | arr xs => rfl
          | obj ofs => rfl

/-- The code-side decryptor coincides with the claim-side one. -/
theorem trav_eq_specTrav (v : Json) : traverseAndDecrypt v = specTraverseAndDecrypt v := by
  induction v with
  | hnull => rfl
  | hbool b => rfl
  | hnum n => rfl
  | hstr s => rfl
  | harr xs ih =>
      simp only [traverseAndDecrypt, specTraverseAndDecrypt, travList_eq_map, specTravList_eq_map]
      exact congrArg Json.arr (List.map_congr_left ih)
  | hobj fs ih =>
      simp only [traverseAndDecrypt, specTraverseAndDecrypt, travFields_eq_map,
        specTravFields_eq_map]
      have hmap : fs.map (fun p => (p.1, traverseAndDecrypt p.2)) =
          fs.map (fun p => (p.1, specTraverseAndDecrypt p.2)) :=
        List.map_congr_left (fun p hp => by rw [ih p hp])
      rw [hmap, decryptShapes_eq_spec]

/-- The FormattersService decryptor coincides with the Shape-A-only
claim-side decryptor. -/
theorem fmtTrav_eq_specTravA (v : Json) :
    formattersTraverseAndDecrypt v = specTraverseA v := by
  induction v with
  | hnull => rfl
  | hbool b => rfl
  | hnum n => rfl
  | hstr s => rfl
  | harr xs ih =>
      simp only [formattersTraverseAndDecrypt, specTraverseA, fmtTravList_eq_map,
        specTravAList_eq_map]
      exact congrArg Json.arr (List.map_congr_left ih)
  | hobj fs ih =>
      simp only [formattersTraverseAndDecrypt, specTraverseA, fmtTravFields_eq_map,
        specTravAFields_eq_map]
      have hmap : fs.map (fun p => (p.1, formattersTraverseAndDecrypt p.2)) =
          fs.map (fun p => (p.1, specTraverseA p.2)) :=
        List.map_congr_left (fun p hp => by rw [ih p hp])
      rw [hmap, decryptShapeA_eq_spec]

-- ==========================================================================
-- Recovering the source's mutate-then-recurse order.  The node transform
-- commutes with the traversal, so the post-order definitions above
-- satisfy the source's recursion equations verbatim.
-- ==========================================================================

theorem travFields_modifyField (f g : Json → Json)
    (hc : ∀ v, traverseAndDecrypt (f v) = g (traverseAndDecrypt v))
    (fs : List (String × Json)) (k : String) :
    travFields (modifyField fs k f) = modifyField (travFields fs) k g := by
  rw [travFields_eq_map, travFields_eq_map]
  exact map_modifyField _ _ _ hc fs k

theorem trav_messageUpdate (m : Json) :
    traverseAndDecrypt (messageUpdate m) = messageUpdate (traverseAndDecrypt m) := by
  cases m with
  | str s =>
      by_cases h : s = "" <;>
        simp [messageUpdate, decryptLinkJson, jsTruthy, traverseAndDecrypt, h]
  | null => rfl
  | bool b => cases b <;> rfl
  | num n =>
      by_cases h : n = 0 <;> simp [messageUpdate, decryptLinkJson, jsTruthy, traverseAndDecrypt, h]
  | arr xs => simp [messageUpdate, decryptLinkJson, jsTruthy, traverseAndDecrypt]
  | obj fs => simp [messageUpdate, decryptLinkJson, jsTruthy, traverseAndDecrypt]

theorem decryptShapeA_modifyField_comm (gs : List (String × Json)) (q : String)
    (f : Json → Json) (hq : q ≠ "urls") :
    decryptShapeA (modifyField gs q f) = modifyField (decryptShapeA gs) q f := by
  unfold decryptShapeA
  rw [lookupField_modifyField_ne gs "urls" q f (Ne.symm hq)]
  cases h : lookupField gs "urls" with
  | none => rfl
  | some v =>
      cases v <;> try rfl
      exact (modifyField_comm gs "urls" q decryptQualityMap f (Ne.symm hq)).symm

theorem decryptShapes_modifyField_comm (gs : List (String × Json)) (q : String)
    (f : Json → Json) (hq1 : q ≠ "urls") (hq2 : q ≠ "key") (hq3 : q ≠ "value") :
    decryptShapes (modifyField gs q f) = modifyField (decryptShapes gs) q f := by
  simp only [decryptShapes, decryptShapeA_modifyField_comm gs q f hq1]
  rw [lookupField_modifyField_ne _ "key" q f (Ne.symm hq2),
    lookupField_modifyField_ne _ "value" q f (Ne.symm hq3)]
  cases hk : lookupField (decryptShapeA gs) "key" with
  | none => rfl
  | some kv =>
      cases hv : lookupField (decryptShapeA gs) "value" with
      | none => cases kv <;> rfl
      | some v =>
          cases kv <;> try rfl
          case str k =>
          by_cases hs : k = "stream_url"
          · by_cases ho : isObjTypeofTruthy v = true
            · simp only [hs, ho, if_true]
              exact modifyField_comm _ q "value" f decryptQualityMap hq3
            · simp [hs, ho]
          · simp [hs]

theorem trav_decryptTier (t : Json) :
    traverseAndDecrypt (decryptTier t) = decryptTier (traverseAndDecrypt t) := by
  cases t with
  | obj tfs =>
      simp only [decryptTier, traverseAndDecrypt]
      rw [travFields_modifyField messageUpdate messageUpdate trav_messageUpdate tfs "message"]
      exact congrArg Json.obj
        (decryptShapes_modifyField_comm (travFields tfs) "message" messageUpdate
          (by decide) (by decide) (by decide))
  | null => rfl
  | bool b => rfl
  | num n => rfl
  | str s => rfl
  | arr xs => rfl

theorem trav_updateTierAt (m : Json) (q : String)
    (hq1 : q ≠ "urls") (hq2 : q ≠ "key") (hq3 : q ≠ "value") :
    traverseAndDecrypt (updateTierAt m q) = updateTierAt (traverseAndDecrypt m) q := by
  cases m with
  | obj fs =>
      simp only [updateTierAt, traverseAndDecrypt]
      rw [travFields_modifyField decryptTier decryptTier trav_decryptTier fs q]
      exact congrArg Json.obj
        (decryptShapes_modifyField_comm (travFields fs) q decryptTier hq1 hq2 hq3)
  | null => rfl
  | bool b => rfl
  | num n => rfl
  | str s => rfl
  | arr xs => rfl

theorem trav_decryptQualityMap (m : Json) :
    traverseAndDecrypt (decryptQualityMap m) = decryptQualityMap (traverseAndDecrypt m) := by
  simp only [decryptQualityMap, qualities, List.foldl_cons, List.foldl_nil]
  rw [trav_updateTierAt _ "low" (by decide) (by decide) (by decide),
    trav_updateTierAt _ "medium" (by decide) (by decide) (by decide),
    trav_updateTierAt _ "high" (by decide) (by decide) (by decide),
    trav_updateTierAt _ "auto" (by decide) (by decide) (by decide)]

theorem decryptShapeA_travFields (fs : List (String × Json)) :
    decryptShapeA (travFields fs) = travFields (decryptShapeA fs) := by
  unfold decryptShapeA
  rw [travFields_eq_map, lookupField_map]
  cases h : lookupField fs "urls" with
  | none => simp only [Option.map]; rw [← travFields_eq_map]
  | some v =>
      cases v with
      | obj u =>
          simp only [Option.map, traverseAndDecrypt]
          rw [← travFields_eq_map,
            travFields_modifyField decryptQualityMap decryptQualityMap trav_decryptQualityMap,
            travFields_eq_map]
      | null => simp only [Option.map, traverseAndDecrypt]; rw [← travFields_eq_map]
      | bool b => simp only [Option.map, traverseAndDecrypt]; rw [← travFields_eq_map]
      | num n => simp only [Option.map, traverseAndDecrypt]; rw [← travFields_eq_map]
      | str s => simp only [Option.map, traverseAndDecrypt]; rw [← travFields_eq_map]
      | arr xs => simp only [Option.map, traverseAndDecrypt]; rw [← travFields_eq_map]

theorem decryptShapes_travFields (fs : List (String × Json)) :
    decryptShapes (travFields fs) = travFields (decryptShapes fs) := by
  simp only [decryptShapes]
  rw [decryptShapeA_travFields]
  generalize decryptShapeA fs = hs
  rw [travFields_eq_map, lookupField_map, lookupField_map]
  cases hk : lookupField hs "key" with
  | none =>
      cases hv : lookupField hs "value" <;>
        simp only [Option.map] <;> rw [← travFields_eq_map]
  | some kv =>
      cases hv : lookupField hs "value" with
      | none =>
          cases kv <;> simp only [Option.map, traverseAndDecrypt] <;> rw [← travFields_eq_map]
      | some v =>
          cases kv with
          | str k =>
              simp only [Option.map, traverseAndDecrypt]
              by_cases hsk : k = "stream_url"
              · by_cases ho : isObjTypeofTruthy v = true
                · simp only [hsk, isObjTypeofTruthy_trav, ho, if_true]
                  rw [← travFields_eq_map,
                    travFields_modifyField decryptQualityMap decryptQualityMap
                      trav_decryptQualityMap, travFields_eq_map]
                · simp only [isObjTypeofTruthy_trav]
                  simp only [hsk, if_true]
                  simp [ho]
                  rw [← travFields_eq_map]
              · simp only [hsk, if_false]
                rw [← travFields_eq_map]
          | null => simp only [Option.map, traverseAndDecrypt]; rw [← travFields_eq_map]
          | bool b => simp only [Option.map, traverseAndDecrypt]; rw [← travFields_eq_map]
          | num n => simp only [Option.map, traverseAndDecrypt]; rw [← travFields_eq_map]
          | arr xs => simp only [Option.map, traverseAndDecrypt]; rw [← travFields_eq_map]
          | obj o => simp only [Option.map, traverseAndDecrypt]; rw [← travFields_eq_map]

/-- The source's recursion equation for object nodes: decrypt the node's
shapes first, then recurse into every property value.  This certifies
that the post-order definition used here computes exactly what the
mutate-then-recurse loop in the source computes. -/
theorem traverseAndDecrypt_source_order (fs : List (String × Json)) :
    traverseAndDecrypt (.obj fs) = .obj (travFields (decryptShapes fs)) := by
  simp only [traverseAndDecrypt]
  exact congrArg Json.obj (decryptShapes_travFields fs)

theorem fmtTravFields_modifyField (f g : Json → Json)
    (hc : ∀ v, formattersTraverseAndDecrypt (f v) = g (formattersTraverseAndDecrypt v))
    (fs : List (String × Json)) (k : String) :
    fmtTravFields (modifyField fs k f) = modifyField (fmtTravFields fs) k g := by
  rw [fmtTravFields_eq_map, fmtTravFields_eq_map]
  exact map_modifyField _ _ _ hc fs k

theorem fmt_messageUpdate (m : Json) :
    formattersTraverseAndDecrypt (messageUpdate m) =
      messageUpdate (formattersTraverseAndDecrypt m) := by
  cases m with
  | str s =>
      by_cases h : s = "" <;>
        simp [messageUpdate, decryptLinkJson, jsTruthy, formattersTraverseAndDecrypt, h]
  | null => rfl
  | bool b => cases b <;> rfl
  | num n =>
      by_cases h : n = 0 <;>
        simp [messageUpdate, decryptLinkJson, jsTruthy, formattersTraverseAndDecrypt, h]
  | arr xs => simp [messageUpdate, decryptLinkJson, jsTruthy, formattersTraverseAndDecrypt]
  | obj fs => simp [messageUpdate, decryptLinkJson, jsTruthy, formattersTraverseAndDecrypt]

theorem fmt_decryptTier (t : Json) :
    formattersTraverseAndDecrypt (decryptTier t) =
      decryptTier (formattersTraverseAndDecrypt t) := by
  cases t with
  | obj tfs =>
      simp only [decryptTier, formattersTraverseAndDecrypt]
      rw [fmtTravFields_modifyField messageUpdate messageUpdate fmt_messageUpdate tfs "message"]
      exact congrArg Json.obj
        (decryptShapeA_modifyField_comm (fmtTravFields tfs) "message" messageUpdate (by decide))
  | null => rfl
  | bool b => rfl
  | num n => rfl
  | str s => rfl
  | arr xs => rfl

theorem fmt_updateTierAt (m : Json) (q : String) (hq : q ≠ "urls") :
    formattersTraverseAndDecrypt (updateTierAt m q) =
      updateTierAt (formattersTraverseAndDecrypt m) q := by
  cases m with
  | obj fs =>
      simp only [updateTierAt, formattersTraverseAndDecrypt]
      rw [fmtTravFields_modifyField decryptTier decryptTier fmt_decryptTier fs q]
      exact congrArg Json.obj
        (decryptShapeA_modifyField_comm (fmtTravFields fs) q decryptTier hq)
  | null => rfl
  | bool b => rfl
  | num n => rfl
  | str s => rfl
  | arr xs => rfl

theorem fmt_decryptQualityMap (m : Json) :
    formattersTraverseAndDecrypt (decryptQualityMap m) =
      decryptQualityMap (formattersTraverseAndDecrypt m) := by
  simp only [decryptQualityMap, qualities, List.foldl_cons, List.foldl_nil]
  rw [fmt_updateTierAt _ "low" (by decide), fmt_updateTierAt _ "medium" (by decide),
    fmt_updateTierAt _ "high" (by decide), fmt_updateTierAt _ "auto" (by decide)]

theorem decryptShapeA_fmtTravFields (fs : List (String × Json)) :
    decryptShapeA (fmtTravFields fs) = fmtTravFields (decryptShapeA fs) := by
  unfold decryptShapeA
  rw [fmtTravFields_eq_map, lookupField_map]
  cases h : lookupField fs "urls" with
  | none => simp only [Option.map]; rw [← fmtTravFields_eq_map]
  | some v =>
      cases v with
      | obj u =>
          simp only [Option.map, formattersTraverseAndDecrypt]
          rw [← fmtTravFields_eq_map,
            fmtTravFields_modifyField decryptQualityMap decryptQualityMap fmt_decryptQualityMap,
            fmtTravFields_eq_map]
      | null => simp only [Option.map, formattersTraverseAndDecrypt]; rw [← fmtTravFields_eq_map]
      | bool b => simp only [Option.map, formattersTraverseAndDecrypt]; rw [← fmtTravFields_eq_map]
      | num n => simp only [Option.map, formattersTraverseAndDecrypt]; rw [← fmtTravFields_eq_map]
      | str s => simp only [Option.map, formattersTraverseAndDecrypt]; rw [← fmtTravFields_eq_map]
      | arr xs => simp only [Option.map, formattersTraverseAndDecrypt]; rw [← fmtTravFields_eq_map]

/-- The source's recursion equation for the FormattersService variant. -/
theorem formatters_source_order (fs : List (String × Json)) :
    formattersTraverseAndDecrypt (.obj fs) = .obj (fmtTravFields (decryptShapeA fs)) := by
  simp only [formattersTraverseAndDecrypt]
  exact congrArg Json.obj (decryptShapeA_fmtTravFields fs)

-- ==========================================================================
-- Frame lemmas: the decryptor preserves the structural skeleton and is
-- the identity on payloads with no recognized link shape.
-- ==========================================================================

theorem modifyField_id (fs : List (String × Json)) (k : String) :
    modifyField fs k (fun v => v) = fs := by
  induction fs with
  | nil => rfl
  | cons p fs ih =>
      obtain ⟨k1, v1⟩ := p
      by_cases h : k1 = k <;> simp [modifyField, h, ih]

theorem jsonSkel_messageUpdate (m : Json) : jsonSkel (messageUpdate m) = jsonSkel m := by
  cases m with
  | str s =>
      by_cases h : s = "" <;> simp [messageUpdate, decryptLinkJson, jsTruthy, jsonSkel, h]
  | _ => simp [messageUpdate, decryptLinkJson, jsTruthy]

theorem jsonSkelFields_modifyField_of (f : Json → Json)
    (hf : ∀ v, jsonSkel (f v) = jsonSkel v) (fs : List (String × Json)) (k : String) :
    jsonSkelFields (modifyField fs k f) = jsonSkelFields fs := by
  rw [jsonSkelFields_eq_map, jsonSkelFields_eq_map,
    map_modifyField jsonSkel f (fun v => v) (fun v => hf v) fs k]
  exact modifyField_id _ k

theorem jsonSkel_decryptTier (t : Json) : jsonSkel (decryptTier t) = jsonSkel t := by
  cases t with
  | obj tfs =>
      simp only [decryptTier, jsonSkel]
      exact congrArg Json.obj
        (jsonSkelFields_modifyField_of messageUpdate jsonSkel_messageUpdate tfs "message")
  | _ => rfl

theorem jsonSkel_updateTierAt (m : Json) (q : String) :
    jsonSkel (updateTierAt m q) = jsonSkel m := by
  cases m with
  | obj fs =>
      simp only [updateTierAt, jsonSkel]
      exact congrArg Json.obj
        (jsonSkelFields_modifyField_of decryptTier jsonSkel_decryptTier fs q)
  | _ => rfl

theorem jsonSkel_decryptQualityMap (m : Json) :
    jsonSkel (decryptQualityMap m) = jsonSkel m := by
  simp only [decryptQualityMap, qualities, List.foldl_cons, List.foldl_nil]
  rw [jsonSkel_updateTierAt _ "low", jsonSkel_updateTierAt _ "medium",
    jsonSkel_updateTierAt _ "high", jsonSkel_updateTierAt _ "auto"]

theorem jsonSkelFields_decryptShapeA (fs : List (String × Json)) :
    jsonSkelFields (decryptShapeA fs) = jsonSkelFields fs := by
  unfold decryptShapeA
  cases h : lookupField fs "urls" with
  | none => rfl
  | some v =>
      cases v <;> try rfl
      exact jsonSkelFields_modifyField_of decryptQualityMap jsonSkel_decryptQualityMap fs "urls"

theorem jsonSkelFields_decryptShapes (fs : List (String × Json)) :
    jsonSkelFields (decryptShapes fs) = jsonSkelFields fs := by
  simp only [decryptShapes]
  cases hk : lookupField (decryptShapeA fs) "key" with
  | none => exact jsonSkelFields_decryptShapeA fs
  | some kv =>
      cases hv : lookupField (decryptShapeA fs) "value" with
      | none => cases kv <;> exact jsonSkelFields_decryptShapeA fs
      | some v =>
          cases kv with
          | str k =>
              by_cases hs : k = "stream_url"
              · by_cases ho : isObjTypeofTruthy v = true
                · simp only [hs, ho, if_true]
                  rw [jsonSkelFields_modifyField_of decryptQualityMap
                    jsonSkel_decryptQualityMap _ "value"]
                  exact jsonSkelFields_decryptShapeA fs
                · simp only [hs, if_true]
                  simp only [Bool.not_eq_true] at ho
                  simp only [ho, Bool.false_eq_true, if_false]
                  exact jsonSkelFields_decryptShapeA fs
              · simp only [hs, if_false]
                exact jsonSkelFields_decryptShapeA fs
          | null => exact jsonSkelFields_decryptShapeA fs
          | bool b => exact jsonSkelFields_decryptShapeA fs
          | num n => exact jsonSkelFields_decryptShapeA fs
          | arr xs => exact jsonSkelFields_decryptShapeA fs
          | obj o => exact jsonSkelFields_decryptShapeA fs

/-- The decryptor preserves the whole structural skeleton of the payload:
no field is added, removed or renamed, no array changes length or order,
and every non-string value is unchanged. -/
theorem jsonSkel_trav (v : Json) : jsonSkel (traverseAndDecrypt v) = jsonSkel v := by
  induction v with
  | hnull => rfl
  | hbool b => rfl
  | hnum n => rfl
  | hstr s => rfl
  | harr xs ih =>
      simp only [traverseAndDecrypt, jsonSkel, travList_eq_map, jsonSkelList_eq_map,
        List.map_map]
      exact congrArg Json.arr (List.map_congr_left (fun x hx => ih x hx))
  | hobj fs ih =>
      simp only [traverseAndDecrypt, jsonSkel]
      rw [jsonSkelFields_decryptShapes, jsonSkelFields_eq_map, travFields_eq_map,
        List.map_map, jsonSkelFields_eq_map]
      exact congrArg Json.obj
        (List.map_congr_left (fun p hp => by simp only [Function.comp]; rw [ih p hp]))

theorem hasLinkShapeFields_false_mem (fs : List (String × Json))
    (h : hasLinkShapeFields fs = false) : ∀ p ∈ fs, hasLinkShape p.2 = false := by
  induction fs with
  | nil => intro p hp; cases hp
  | cons q fs ih =>
      simp only [hasLinkShapeFields, Bool.or_eq_false_iff] at h
      intro p hp
      rcases List.mem_cons.mp hp with rfl | hp
      · exact h.1
      · exact ih h.2 p hp

theorem hasLinkShapeList_false_mem (xs : List Json)
    (h : hasLinkShapeList xs = false) : ∀ x ∈ xs, hasLinkShape x = false := by
  induction xs with
  | nil => intro x hx; cases hx
  | cons y xs ih =>
      simp only [hasLinkShapeList, Bool.or_eq_false_iff] at h
      intro x hx
      rcases List.mem_cons.mp hx with rfl | hx
      · exact h.1
      · exact ih h.2 x hx

theorem decryptShapeA_of_no_shape (fs : List (String × Json))
    (h : (match lookupField fs "urls" with
          | some (.obj _) => true
          | _ => false) = false) : decryptShapeA fs = fs := by
  unfold decryptShapeA
  cases hu : lookupField fs "urls" with
  | none => rfl
  | some v =>
      cases v <;> try rfl
      rw [hu] at h
      simp at h

theorem decryptShapes_of_no_shape (fs : List (String × Json))
    (h : nodeHasShape fs = false) : decryptShapes fs = fs := by
  simp only [nodeHasShape, Bool.or_eq_false_iff] at h
  obtain ⟨h1, h2⟩ := h
  have hA : decryptShapeA fs = fs := decryptShapeA_of_no_shape fs h1
  simp only [decryptShapes, hA]
  cases hk : lookupField fs "key" with
  | none => rfl
  | some kv =>
      cases hv : lookupField fs "value" with
      | none => cases kv <;> rfl
      | some v =>
          cases kv with
          | str k =>
              rw [hk, hv] at h2
              by_cases hs : k = "stream_url"
              · have : isObjTypeofTruthy v = false := by
                  simp [hs] at h2
                  exact h2
                simp [hs, this]
              · simp [hs]
          | null => rfl
          | bool b => rfl
          | num n => rfl
          | arr xs => rfl
          | obj o => rfl

/-- The decryptor is the structural identity on payloads containing no
recognized link shape. -/
theorem trav_id_of_no_shape (v : Json) (h : hasLinkShape v = false) :
    traverseAndDecrypt v = v := by
  induction v with
  | hnull => rfl
  | hbool b => rfl
  | hnum n => rfl
  | hstr s => rfl
  | harr xs ih =>
      simp only [hasLinkShape] at h
      have hmem := hasLinkShapeList_false_mem xs h
      simp only [traverseAndDecrypt, travList_eq_map]
      have : xs.map traverseAndDecrypt = xs.map (fun x => x) :=
        List.map_congr_left (fun x hx => ih x hx (hmem x hx))
      rw [this, List.map_id']
  | hobj fs ih =>
      simp only [hasLinkShape, Bool.or_eq_false_iff] at h
      have hmem := hasLinkShapeFields_false_mem fs h.2
      simp only [traverseAndDecrypt, travFields_eq_map]
      have hfld : fs.map (fun p => (p.1, traverseAndDecrypt p.2)) = fs.map (fun p => p) :=
        List.map_congr_left (fun p hp => by rw [ih p hp (hmem p hp)])
      rw [hfld, List.map_id', decryptShapes_of_no_shape fs h.1]

-- ==========================================================================
-- Windowing lemmas
-- ==========================================================================

/-- For non-negative bounds, JavaScript slicing is ordinary sequence
slicing: drop `s`, keep `e - s` — clamped, never padded, never failing. -/
theorem jsSlice_of_nonneg (xs : List Json) (s e : Nat) :
    jsSlice xs (s : Int) (e : Int) = (xs.drop s).take (e - s) := by
  simp only [jsSlice]
  rw [if_neg (by omega), if_neg (by omega)]
  have h1 : (min (s : Int) (xs.length : Int)).toNat = min s xs.length := by omega
  have h2 : (min (e : Int) (xs.length : Int)).toNat = min e xs.length := by omega
  rw [h1, h2, List.drop_take]
  by_cases hs : s ≤ xs.length
  · have hmins : min s xs.length = s := by omega
    rw [hmins]
    by_cases he : e ≤ xs.length
    · have hmine : min e xs.length = e := by omega
      rw [hmine]
    · have hmine : min e xs.length = xs.length := by omega
      rw [hmine, List.take_of_length_le (by simp only [List.length_drop]; omega),
        List.take_of_length_le (by simp only [List.length_drop]; omega)]
  · have hmins : min s xs.length = xs.length := by omega
    rw [hmins, List.drop_length, List.drop_eq_nil_of_le (by omega), List.take_nil,
      List.take_nil]

theorem applySliceToEntities_eq_spec (v : Json) (s e : Int) :
    applySliceToEntities v s e = windowFlatSpec v s e := by
  cases v with
  | obj fs =>
      simp only [applySliceToEntities, windowFlatSpec]
      cases h : lookupField fs "entities" with
      | none => rw [modifyField_of_lookup_none fs "entities" _ h]
      | some w =>
          cases w with
          | arr xs => rw [modifyField_eq_setField fs "entities" _ _ h]
          | null => rw [modifyField_eq_self fs "entities" _ _ h rfl]
          | bool b => rw [modifyField_eq_self fs "entities" _ _ h rfl]
          | num n => rw [modifyField_eq_self fs "entities" _ _ h rfl]
          | str s2 => rw [modifyField_eq_self fs "entities" _ _ h rfl]
          | obj o => rw [modifyField_eq_self fs "entities" _ _ h rfl]
  | null => rfl
  | bool b => rfl
  | num n => rfl
  | str s2 => rfl
  | arr xs => rfl

theorem applySlice_eq_spec (v : Json) (s e : Int) :
    applySlice v s e = windowGroupedSpec v s e := by
  cases v with
  | obj fs =>
      simp only [applySlice, windowGroupedSpec]
      cases h : lookupField fs "gr" with
      | none => rw [modifyField_of_lookup_none fs "gr" _ h]
      | some w =>
          cases w with
          | arr groups =>
              rw [modifyField_eq_setField fs "gr" _ _ h]
              have hg : ∀ g : Json,
                  (match g with
                   | Json.obj gfs =>
                       match lookupField gfs "gd" with
                       | some (.arr items) => Json.obj (setField gfs "gd" (.arr (jsSlice items s e)))
                       | _ => g
                   | _ => g) =
                  (match g with
                   | Json.obj gfs => Json.obj (modifyField gfs "gd" (fun w2 =>
                       match w2 with
                       | .arr items => .arr (jsSlice items s e)
                       | w2 => w2))
                   | _ => g) := by
                intro g
                cases g with
                | obj gfs =>
                    dsimp only
                    cases hgd : lookupField gfs "gd" with
                    | none => rw [modifyField_of_lookup_none gfs "gd" _ hgd]
                    | some w2 =>
                        cases w2 with
                        | arr items => rw [modifyField_eq_setField gfs "gd" _ _ hgd]
                        | null => rw [modifyField_eq_self gfs "gd" _ _ hgd rfl]
                        | bool b => rw [modifyField_eq_self gfs "gd" _ _ hgd rfl]
                        | num n => rw [modifyField_eq_self gfs "gd" _ _ hgd rfl]
                        | str s2 => rw [modifyField_eq_self gfs "gd" _ _ hgd rfl]
                        | obj o => rw [modifyField_eq_self gfs "gd" _ _ hgd rfl]
                | null => rfl
                | bool b => rfl
                | num n => rfl
                | str s2 => rfl
                | arr xs => rfl
              exact congrArg Json.obj (congrArg (setField fs "gr")
                (congrArg Json.arr (List.map_congr_left (fun g _ => hg g))))
          | null => rw [modifyField_eq_self fs "gr" _ _ h rfl]
          | bool b => rw [modifyField_eq_self fs "gr" _ _ h rfl]
          | num n => rw [modifyField_eq_self fs "gr" _ _ h rfl]
          | str s2 => rw [modifyField_eq_self fs "gr" _ _ h rfl]
          | obj o => rw [modifyField_eq_self fs "gr" _ _ h rfl]
  | null => rfl
  | bool b => rfl
  | num n => rfl
  | str s2 => rfl
  | arr xs => rfl

/-- `limitResults` with a parsed positive limit is exactly `applySlice`
from 0 to that limit. -/
theorem limitResults_eq_applySlice (v : Json) (l : String) (n : Int)
    (hp : parseIntJS l = some n) (hn : 0 < n) :
    limitResults v (some l) = applySlice v 0 n := by
  have hne : l ≠ "" := by
    intro h
    subst h
    exact Option.noConfusion hp
  simp only [limitResults, hne, hp, if_neg (by omega : ¬n ≤ 0), if_neg hne]
  cases v with
  | obj fs =>
      simp only [applySlice]
      cases h : lookupField fs "gr" <;> rfl
  | null => rfl
  | bool b => rfl
  | num n2 => rfl
  | str s2 => rfl
  | arr xs => rfl

-- ==========================================================================
-- Claim theorems
-- ==========================================================================

/-- C1 (counterexample): the claim's formula `sliceStart = (p*l) mod b`
fails for parsed inputs with a negative product: at page "-1", limit
"10", batchSize 20 the code's JavaScript remainder gives -10, while
(-1*10) mod 20 = 10. -/
theorem claim_C1_cex :
    (getPagination (some "-1") (some "10") 20).sliceStart ≠ ((-1 : Int) * 10) % 20 := by
  decide

/-- C1 (amended): for every page and limit string whose parsed values (after
default substitution) are `p` and `l` with `p * l ≥ 0`, and every positive
batchSize `b`, plan returns upstreamPageIndex = floor((p*l)/b),
sliceStart = (p*l) mod b and sliceEnd = sliceStart + l; when `p * l` is
negative, sliceStart is instead the JavaScript remainder (sign of the
dividend).  In particular plan(page=1, limit=15, batchSize=20) returns
(0, 15, 30), reproducing the single-batch truncation. -/
theorem claim_C1 :
    (∀ (ps ls : Option String) (b p l : Int), 0 < b →
      jsOrNum (parseIntJS (jsOrString ps "0")) 0 = p →
      jsOrNum (parseIntJS (jsOrString ls "10")) 10 = l →
      0 ≤ p * l →
      getPagination ps ls b = ⟨(p * l) / b, (p * l) % b, (p * l) % b + l⟩) ∧
    getPagination (some "1") (some "15") 20 = ⟨0, 15, 30⟩ := by
  constructor
  · intro ps ls b p l hb hp hl hpos
    subst hp
    subst hl
    simp only [getPagination]
    rw [Int.fdiv_eq_ediv _ (Int.le_of_lt hb), Int.tmod_eq_emod hpos (Int.le_of_lt hb)]
  · decide

/-- C1 (witness): the amended formula instantiated at page "1", limit
"15", batchSize 20. -/
theorem claim_C1_witness :
    getPagination (some "1") (some "15") 20 =
      ⟨((1 : Int) * 15) / 20, ((1 : Int) * 15) % 20, ((1 : Int) * 15) % 20 + 15⟩ :=
  claim_C1.1 (some "1") (some "15") 20 1 15 (by decide) (by decide) (by decide) (by decide)

/-- C2: for every token of length at least 20 whose first character is a
decimal digit, the decoder discards the first digit+16 characters,
base64-decodes the remainder and — when the AES-128-CBC decryption under
the fixed key and IV (padding disabled) succeeds with plaintext `pt` —
strips every byte outside printable ASCII 0x20–0x7E and then searches the
cleaned text for "hls/": if found, it returns the fixed CDN origin
concatenated with the cleaned text from that point; otherwise the cleaned
text, or the original token when the cleaned text is empty. -/
theorem claim_C2 (s : String) (c : Char) (cs : List Char)
    (hdata : s.data = c :: cs) (hdig : c.isDigit = true) (hlen : 20 ≤ s.length)
    (pt : List Nat)
    (hdec : aes128cbcDecrypt DEC_KEY DEC_IV
      (base64Decode ((c :: cs).drop (c.toNat - '0'.toNat + 16))) = some pt) :
    decryptLink s =
      (let cleaned := (pt.filter (fun b => decide (32 ≤ b ∧ b ≤ 126))).map Char.ofNat
       match indexOfSub hlsMarker cleaned with
       | some i => CDN_ORIGIN ++ String.mk (cleaned.drop i)
       | none => if cleaned = [] then s else String.mk cleaned) := by
  unfold decryptLink
  rw [if_neg (by omega : ¬s.length < 20), hdata]
  simp only [hdig, not_true_eq_false, if_false, hdec]

/-- C2 (witness): a token whose ciphertext was produced with the fixed
key and IV decodes to the CDN-rewritten HLS URL. -/
theorem claim_C2_witness : decryptLink sampleToken = sampleDecoded := by
  have h := claim_C2 sampleToken '2' "AAAAAAAAAAAAAAAAAGbcPrCi35YBlU8JSdgtHuw==".data
    (by decide) (by decide) (by decide) ("hls/x/master.m3u".data.map Char.toNat) (by decide)
  rw [h]
  decide

/-- C3 (counterexample): a negative limit is NOT replaced by the default
10: `parseInt("-5") || 10` keeps -5, so plan(page="1", limit="-5") and
plan(page="1", limit="10") differ. -/
theorem claim_C3_cex :
    getPagination (some "1") (some "-5") 20 ≠ getPagination (some "1") (some "10") 20 := by
  decide

/-- C3 (amended): plan with an absent or unparsable page behaves like
page = "0", and plan with an absent, unparsable or ZERO limit behaves
like limit = "10"; a negative limit, however, is kept as parsed
(`parseInt(...) || default` only replaces NaN and 0).  Malformed
pagination input is never an error (the planner is total). -/
theorem claim_C3 :
    (∀ (b : Int) (ls : Option String),
      getPagination none ls b = getPagination (some "0") ls b) ∧
    (∀ (b : Int) (ls : Option String) (s : String), parseIntJS s = none →
      getPagination (some s) ls b = getPagination (some "0") ls b) ∧
    (∀ (b : Int) (ps : Option String),
      getPagination ps none b = getPagination ps (some "10") b) ∧
    (∀ (b : Int) (ps : Option String) (s : String),
      parseIntJS s = none ∨ parseIntJS s = some 0 →
      getPagination ps (some s) b = getPagination ps (some "10") b) := by
  have h0 : parseIntJS "0" = some 0 := by decide
  have h10 : parseIntJS "10" = some 10 := by decide
  refine ⟨?_, ?_, ?_, ?_⟩
  · intro b ls
    rfl
  · intro b ls s hs
    by_cases h : s = ""
    · simp [getPagination, jsOrString, h]
    · simp [getPagination, jsOrString, jsOrNum, h, hs, h0]
  · intro b ps
    rfl
  · intro b ps s hs
    by_cases h : s = ""
    · simp [getPagination, jsOrString, h]
    · rcases hs with hs | hs <;> simp [getPagination, jsOrString, jsOrNum, h, hs, h10]

/-- C3 (witness): an unparsable page behaves as page "0"; a zero limit
behaves as limit "10". -/
theorem claim_C3_witness :
    getPagination (some "abc") (some "7") 20 = getPagination (some "0") (some "7") 20 ∧
    getPagination (some "3") (some "0") 20 = getPagination (some "3") (some "10") 20 :=
  ⟨claim_C3.2.1 20 (some "7") "abc" (by decide),
   claim_C3.2.2.2 20 (some "3") "0" (Or.inr (by decide))⟩

/-- C4 (counterexample): the FormattersService variant of the decryptor
does not recognize Shape B: a `key = "stream_url"` payload passes
through unchanged even though its message is decodable (the decoder
changes it). -/
theorem claim_C4_cex :
    formattersTraverseAndDecrypt shapeBPayload = shapeBPayload ∧
    decryptLink sampleToken ≠ sampleToken :=
  ⟨rfl, by decide⟩

/-- C4 (amended): the standalone decryptor (src/unnamed/part_000)
replaces messages at every object node matching Shape A or Shape B, at
arbitrary nesting depth including through arrays — it equals the
claim-side recursive decryptor; the FormattersService variant
(src/unnamed/part_001 and the second app of src/src/index.ts)
recognizes only Shape A. -/
theorem claim_C4 :
    (∀ v, traverseAndDecrypt v = specTraverseAndDecrypt v) ∧
    (∀ v, formattersTraverseAndDecrypt v = specTraverseA v) :=
  ⟨trav_eq_specTrav, fmtTrav_eq_specTravA⟩

/-- C5: the decoder never raises and returns its input unchanged on every
failure input: strings shorter than 20 characters (the empty string
included), strings not starting with a decimal digit, and strings whose
remainder decodes to a byte string the block cipher rejects (length not
a multiple of 16 — the only throwing step; `Buffer.from(_, 'base64')`
itself never throws). -/
theorem claim_C5 :
    (∀ s : String, s.length < 20 → decryptLink s = s) ∧
    (∀ (s : String) (c : Char) (cs : List Char), s.data = c :: cs → c.isDigit = false →
      decryptLink s = s) ∧
    (∀ (s : String) (c : Char) (cs : List Char), s.data = c :: cs → c.isDigit = true →
      (base64Decode ((c :: cs).drop (c.toNat - '0'.toNat + 16))).length % 16 ≠ 0 →
      decryptLink s = s) := by
  refine ⟨?_, ?_, ?_⟩
  · intro s h
    simp [decryptLink, h]
  · intro s c cs hd hdig
    unfold decryptLink
    by_cases hl : s.length < 20
    · simp [hl]
    · rw [if_neg hl, hd]
      simp [hdig]
  · intro s c cs hd hdig hmod
    unfold decryptLink
    by_cases hl : s.length < 20
    · simp [hl]
    · rw [if_neg hl, hd]
      simp only [hdig, not_true_eq_false, if_false]
      simp only [aes128cbcDecrypt]
      rw [if_neg hmod]

/-- C5 (witness): the three failure modes at concrete inputs. -/
theorem claim_C5_witness :
    decryptLink "abc" = "abc" ∧
    decryptLink "Xaaaaaaaaaaaaaaaaaaaa" = "Xaaaaaaaaaaaaaaaaaaaa" ∧
    decryptLink "5aaaaaaaaaaaaaaaaaaaaQUFB" = "5aaaaaaaaaaaaaaaaaaaaQUFB" :=
  ⟨claim_C5.1 "abc" (by decide),
   claim_C5.2.1 "Xaaaaaaaaaaaaaaaaaaaa" 'X' "aaaaaaaaaaaaaaaaaaaa".data (by decide) (by decide),
   claim_C5.2.2 "5aaaaaaaaaaaaaaaaaaaaQUFB" '5' "aaaaaaaaaaaaaaaaaaaaQUFB".data
     (by decide) (by decide) (by decide)⟩

/-- C6: window replaces the top-level `entities` sequence (flat-list
shape) and each group's inner `gd` sequence (grouped-list shape, field
`gr`) by its slice [start, end); absent or non-array fields leave the
payload unchanged (this is what the claim-side windowers express);
slicing with non-negative bounds is ordinary drop/take, clamped with no
padding and no error; `{ entities: [a,b,c,d,e] }` windowed to (1,3)
gives `{ entities: [b,c] }`; and `limitResults` with a parsed positive
limit `n` is exactly the grouped window [0, n). -/
theorem claim_C6 :
    (∀ (v : Json) (s e : Int), applySliceToEntities v s e = windowFlatSpec v s e) ∧
    (∀ (v : Json) (s e : Int), applySlice v s e = windowGroupedSpec v s e) ∧
    (∀ (xs : List Json) (s e : Nat),
      jsSlice xs (s : Int) (e : Int) = (xs.drop s).take (e - s)) ∧
    (∀ (a b c d e : Json),
      applySliceToEntities (.obj [("entities", .arr [a, b, c, d, e])]) 1 3 =
        .obj [("entities", .arr [b, c])]) ∧
    (∀ (v : Json) (l : String) (n : Int), parseIntJS l = some n → 0 < n →
      limitResults v (some l) = applySlice v 0 n) := by
  refine ⟨applySliceToEntities_eq_spec, applySlice_eq_spec, jsSlice_of_nonneg, ?_,
    limitResults_eq_applySlice⟩
  intro a b c d e
  rfl

/-- C6 (witness): `limitResults` with limit "3" equals `applySlice 0 3`
on a grouped payload. -/
theorem claim_C6_witness :
    limitResults (.obj [("gr", .arr [.obj [("gd", .arr [.num 1, .num 2, .num 3, .num 4])]])])
        (some "3") =
      applySlice (.obj [("gr", .arr [.obj [("gd", .arr [.num 1, .num 2, .num 3, .num 4])]])])
        0 3 :=
  claim_C6.2.2.2.2 _ "3" 3 (by decide) (by decide)

/-- C7: the decryptor never adds, removes or renames a field and never
changes any array's length or order — it preserves the structural
skeleton (which forgets only string-leaf contents); its changes are
confined to the recognized message positions (it equals the claim-side
decryptor, which rewrites nothing else); and it is the structural
identity on payloads containing no recognized link shape. -/
theorem claim_C7 :
    (∀ v, jsonSkel (traverseAndDecrypt v) = jsonSkel v) ∧
    (∀ v, traverseAndDecrypt v = specTraverseAndDecrypt v) ∧
    (∀ v, hasLinkShape v = false → traverseAndDecrypt v = v) :=
  ⟨jsonSkel_trav, trav_eq_specTrav, trav_id_of_no_shape⟩

/-- C7 (witness): identity on a concrete shapeless payload. -/
theorem claim_C7_witness :
    traverseAndDecrypt (.obj [("a", .num 1), ("b", .arr [.str "x", .null])]) =
      .obj [("a", .num 1), ("b", .arr [.str "x", .null])] :=
  claim_C7.2.2 (.obj [("a", .num 1), ("b", .arr [.str "x", .null])]) (by decide)

/-- C8 (counterexample): the SliceWindow invariant fails for parseable
negative input: at page "1", limit "-5", batchSize 20 the planner
returns sliceStart = -5 (negative) and sliceEnd = -10 < sliceStart. -/
theorem claim_C8_cex :
    ¬(0 ≤ (getPagination (some "1") (some "-5") 20).sliceStart ∧
      (getPagination (some "1") (some "-5") 20).sliceStart ≤
        (getPagination (some "1") (some "-5") 20).sliceEnd) := by
  decide

/-- C8 (amended): whenever the parsed page and limit (after default
substitution) are non-negative — which includes every absent or
unparsable input — and the batchSize is positive, the SliceWindow
invariant holds: sliceStart is non-negative and sliceEnd ≥ sliceStart. -/
theorem claim_C8 (ps ls : Option String) (b : Int) (_hb : 0 < b)
    (hp : 0 ≤ jsOrNum (parseIntJS (jsOrString ps "0")) 0)
    (hl : 0 ≤ jsOrNum (parseIntJS (jsOrString ls "10")) 10) :
    0 ≤ (getPagination ps ls b).sliceStart ∧
      (getPagination ps ls b).sliceStart ≤ (getPagination ps ls b).sliceEnd := by
  simp only [getPagination]
  constructor
  · exact Int.tmod_nonneg b (mul_nonneg hp hl)
  · exact Int.le_add_of_nonneg_right hl

/-- C8 (witness): the invariant at page "2", limit "15", batchSize 20. -/
theorem claim_C8_witness :
    0 ≤ (getPagination (some "2") (some "15") 20).sliceStart ∧
      (getPagination (some "2") (some "15") 20).sliceStart ≤
        (getPagination (some "2") (some "15") 20).sliceEnd :=
  claim_C8 (some "2") (some "15") 20 (by decide) (by decide) (by decide)

/-- C9 (counterexample): "exactly when" fails: an upstream response whose
first track is itself the object `{ error: 'Song not found' }` makes
`getSongInfo` return that object even though the response has a
non-empty `tracks` array. -/
theorem claim_C9_cex :
    getSongInfo (.obj [("tracks", .arr [songNotFound])]) = songNotFound ∧
    songInfoErrorCond (.obj [("tracks", .arr [songNotFound])]) = false :=
  ⟨rfl, rfl⟩

/-- C9 (amended): `getSongInfo` returns `{ error: 'Song not found' }`
when the parsed response is null, not an object, or lacks a `tracks`
field that is a non-empty array; otherwise it returns the first element
of `tracks`, decrypted in place by the FormattersService traversal —
never the surrounding response object (though that first element may
itself coincidentally equal the error object). -/
theorem claim_C9 (r : Json) :
    (songInfoErrorCond r = true → getSongInfo r = songNotFound) ∧
    (∀ fs t ts, r = .obj fs → lookupField fs "tracks" = some (.arr (t :: ts)) →
      getSongInfo r = formattersTraverseAndDecrypt t) := by
  constructor
  · intro h
    cases r with
    | obj fs =>
        simp only [songInfoErrorCond] at h
        simp only [getSongInfo, jsTruthy, isObjTypeofTruthy, getField]
        cases ht : lookupField fs "tracks" with
        | none => simp [ht]
        | some w =>
            rw [ht] at h
            cases w with
            | arr xs =>
                cases xs with
                | nil => simp [ht]
                | cons t ts => simp at h
            | null => simp [ht]
            | bool b => simp [ht]
            | num n => simp [ht]
            | str s => simp [ht]
            | obj o => simp [ht]
    | null => rfl
    | bool b => cases b <;> rfl
    | num n =>
        simp only [getSongInfo, getField]
        by_cases hn : n = 0 <;> simp [jsTruthy, isObjTypeofTruthy, hn]
    | str s =>
        simp only [getSongInfo, getField]
        by_cases hs : s = "" <;> simp [jsTruthy, isObjTypeofTruthy, hs]
    | arr xs => rfl
  · intro fs t ts hr htr
    subst hr
    simp [getSongInfo, jsTruthy, isObjTypeofTruthy, getField, htr]

/-- C9 (witness): a primitive response yields the error object; a
well-formed response yields only the (decrypted) first track. -/
theorem claim_C9_witness :
    getSongInfo (.num 5) = songNotFound ∧
    getSongInfo (.obj [("tracks", .arr [.obj [("x", .num 2)], .null])]) = .obj [("x", .num 2)] := by
  constructor
  · exact (claim_C9 (.num 5)).1 (by decide)
  · have h := (claim_C9 (.obj [("tracks", .arr [.obj [("x", .num 2)], .null])])).2
      [("tracks", .arr [.obj [("x", .num 2)], .null])] (.obj [("x", .num 2)]) [.null] rfl rfl
    rw [h]
    rfl

/-- C10: `getBatchSize` returns 50 exactly on the string
"musiclabelalbums" and 20 on every other string; in particular it is
never 40. -/
theorem claim_C10 (s : String) :
    getBatchSize s = (if s = "musiclabelalbums" then 50 else 20) ∧ getBatchSize s ≠ 40 := by
  refine ⟨rfl, ?_⟩
  unfold getBatchSize
  split <;> decide
